import Mathlib

/-!
Verification development for the zed-unicode repository.

Shallow embedding of the two source files:
 - unicode-ls/src/main.rs : the completion-table builder (get_prefix and the
   record/curated loops in main).
 - src/lib.rs : the extension's binary provisioning (target_triple, download,
   language_server_binary_path).

Rust strings are modelled by Lean String; the record-file input to main is a
list of lines; the HashMap built by the macro is modelled by insertion into an
association list, with the (unspecified) iteration order an explicit parameter.
-/

set_option maxRecDepth 10000

namespace ZedUnicode

/-! ## Embedding of unicode-ls/src/main.rs -/

/-- One completion record, Rust struct Snippet
(fields scope, prefix, description, body); the Rust field named prefix is
called pfx here because that word is reserved in Lean. -/
structure Snippet where
  scope : Option String
  pfx : String
  description : Option String
  body : String
deriving DecidableEq, Repr

/-- Model of Rust str::replace for a non-empty pattern, on character lists:
replace every non-overlapping occurrence of pat, scanning left to right.
The fuel argument (instantiated with the length of the string) makes the
recursion structural; it never runs out when fuel bounds the length. -/
def replaceCharsFuel (pat repl : List Char) : Nat → List Char → List Char
  | _, [] => []
  | 0, s => s
  | Nat.succ f, c :: rest =>
    if pat ≠ [] ∧ pat.isPrefixOf (c :: rest) then
      repl ++ replaceCharsFuel pat repl f ((c :: rest).drop pat.length)
    else
      c :: replaceCharsFuel pat repl f rest

/-- Model of Rust str::replace on String. -/
def replaceStr (s pat repl : String) : String :=
  String.mk (replaceCharsFuel pat.data repl.data s.data.length s.data)

/-- Rust fn get_prefix from main.rs: strip the fixed literals, turn the
remaining spaces into hyphens, and refuse the control-character marker. -/
def get_prefix (s : String) : Option String :=
  let s := replaceStr s "LATIN " ""
  let s := replaceStr s "BALINESE " ""
  let s := replaceStr s "GREEK " ""
  let s := replaceStr s "TAI THAM HORA " ""
  let s := replaceStr s "THAM COMBINING CRYPTOGRAMMIC " ""
  let s := replaceStr s "TAI THAM SIGN " ""
  let s := replaceStr s "TAI THAM VOWEL " ""
  let s := replaceStr s " " "-"
  if s = "<control>" then none else some s

/-- Model of Rust char::to_digit(16). -/
def hexDigitVal? (c : Char) : Option Nat :=
  if '0' ≤ c ∧ c ≤ '9' then some (c.toNat - '0'.toNat)
  else if 'a' ≤ c ∧ c ≤ 'f' then some (c.toNat - 'a'.toNat + 10)
  else if 'A' ≤ c ∧ c ≤ 'F' then some (c.toNat - 'A'.toNat + 10)
  else none

/-- Digit-accumulation loop of u32::from_str_radix: fails on a non-digit and
on overflow past 2^32 - 1 (the checked multiply/add of the Rust loop). -/
def parseHexAux : List Char → Nat → Option Nat
  | [], acc => some acc
  | c :: rest, acc =>
    match hexDigitVal? c with
    | none => none
    | some d =>
      if acc * 16 + d < 4294967296 then parseHexAux rest (acc * 16 + d) else none

/-- Model of u32::from_str_radix(s, 16): an optional leading + sign, then a
non-empty run of hexadecimal digits; a leading - is rejected for u32. -/
def u32_from_str_radix_16 (s : String) : Option Nat :=
  match s.data with
  | [] => none
  | ['+'] => none
  | '+' :: rest => parseHexAux rest 0
  | '-' :: _ => none
  | l => parseHexAux l 0

/-- Model of char::try_from(u32): scalar values are those below the surrogate
block or between it and 0x110000 (identical to Lean's Nat.isValidChar). -/
def char_try_from (n : Nat) : Option Char :=
  if n < 0xd800 then some (Char.ofNat n)
  else if 0xdfff < n ∧ n < 0x110000 then some (Char.ofNat n)
  else none

/-- Model of Rust char to_lowercase as used by str::to_lowercase; the record
file's name field is ASCII, where the full Unicode mapping coincides with the
ASCII one. -/
def charToLowercase (c : Char) : Char :=
  if 'A' ≤ c ∧ c ≤ 'Z' then Char.ofNat (c.toNat + 32) else c

/-- Model of Rust str::to_lowercase (ASCII fragment, see charToLowercase). -/
def toLowercase (s : String) : String :=
  String.mk (s.data.map charToLowercase)

/-- Split a character list at every occurrence of sep, Rust str::split with a
single-character pattern; never returns the empty list. -/
def splitOnChar (sep : Char) : List Char → List (List Char)
  | [] => [[]]
  | c :: rest =>
    if c = sep then
      [] :: splitOnChar sep rest
    else
      match splitOnChar sep rest with
      | [] => [[c]]
      | t :: ts => (c :: t) :: ts

/-- Rust line.split(";") as a list of strings. -/
def splitOnStr (s : String) (sep : Char) : List String :=
  (splitOnChar sep s.data).map String.mk

/-- The body of the per-line for loop in main: the snippets one input line
contributes. An empty line, a line with fewer than two semicolon-separated
fields, a field 0 that u32::from_str_radix rejects, a codepoint that
char::try_from rejects, and a name whose get_prefix is none all contribute
nothing (the continue branches); otherwise the line contributes one snippet
whose description and body are the character's textual representation. -/
def lineSnippets (line : String) : List Snippet :=
  if line = "" then []
  else
    match splitOnStr line ';' with
    | c :: aliasField :: _ =>
      match u32_from_str_radix_16 c with
      | none => []
      | some n =>
        match char_try_from n with
        | none => []
        | some ch =>
          let aliasField := toLowercase aliasField
          match get_prefix aliasField with
          | none => []
          | some pfx =>
            [{ scope := none
               pfx := pfx
               description := some (String.singleton ch)
               body := String.singleton ch }]
    | _ => []

/-- The record loop of main: fold over the lines of data.txt in file order,
pushing each line's snippets onto the accumulator. -/
def mainLoop (snippets : List Snippet) : List String → List Snippet
  | [] => snippets
  | line :: rest => mainLoop (snippets ++ lineSnippets line) rest

/-- The pairs the create_snippet_map macro inserts, in the order main.rs
lists them (values are the single-character strings format produces). -/
def curatedPairs : List (String × String) :=
  [("Rightarrow", "⇒"), ("rightarrow", "→"), ("supset", "⊃"),
   ("Leftrightarrow", "⇔"), ("leftarrowarrow", "↔"), ("equiv", "≡"),
   ("lnot", "¬"), ("neg", "¬"), ("wedge", "∧"), ("land", "∧"),
   ("cdot", "·"), ("lor", "∨"), ("vee", "∨"), ("parallel", "∥"),
   ("oplus", "⊕"), ("veebar", "⊻"), ("notequiv", "≢"), ("top", "⊤"),
   ("bot", "⊥"), ("forall", "∀"), ("exists", "∃"), ("vdash", "⊢"),
   ("turnstile", "⊢"), ("vDash", "⊨"), ("Leftrightarrow", "⇔"),
   ("nvdash", "⊬"), ("nvDash", "⊭"), ("Box", "□"), ("Diamond", "◇"),
   ("therefore", "∴"), ("because", "∵"), (":=", "≔"), ("alpha", "α"),
   ("a", "α"), ("beta", "β"), ("b", "β"), ("gamma", "γ"), ("Gamma", "Γ"),
   ("delta", "δ"), ("Delta", "Δ"), ("epsilon", "δ"), ("zeta", "ζ"),
   ("eta", "η"), ("theta", "θ"), ("Theta", "Θ"), ("iota", "ι"),
   ("kappa", "κ"), ("k", "κ"), ("lambda", "λ"), ("Lambda", "Λ"),
   ("mu", "μ"), ("xi", "ξ"), ("Xi", "Ξ"), ("pi", "π"), ("Pi", "Π"),
   ("rho", "ρ"), ("sigma", "σ"), ("Sigma", "Σ"), ("tau", "τ"),
   ("upsilon", "υ"), ("phi", "φ"), ("Phi", "Φ"), ("chi", "χ"),
   ("psi", "ψ"), ("Psi", "Ψ"), ("omega", "ω"), ("Omega", "Ω")]

/-- HashMap::insert on the association-list model: an existing key keeps its
position and has its value overwritten, a new key is appended. -/
def insertPair (m : List (String × String)) (k v : String) :
    List (String × String) :=
  if m.any (fun p => p.1 = k) then
    m.map (fun p => if p.1 = k then (k, v) else p)
  else
    m ++ [(k, v)]

/-- The key-value entries of the HashMap the macro builds (canonical order:
first insertion position; a real HashMap yields these entries in an
unspecified order, modelled below as any permutation of this list). -/
def unicodeMapEntries : List (String × String) :=
  curatedPairs.foldl (fun m p => insertPair m p.1 p.2) []

/-- The curated loop of main: for (name, value) in unicode, push a snippet
with prefix name, description Some value, body value. iter is the order in
which the HashMap yields its entries. -/
def curatedLoop (snippets : List Snippet) :
    List (String × String) → List Snippet
  | [] => snippets
  | (name, value) :: rest =>
    curatedLoop
      (snippets ++
        [{ scope := none, pfx := name, description := some value,
           body := value }])
      rest

/-- Everything pushed by main before the final filter: the record loop over
the file's lines, then the curated loop over the HashMap's entries. -/
def snippetsAll (lines : List String) (iter : List (String × String)) :
    List Snippet :=
  curatedLoop (mainLoop [] lines) iter

/-- The closure passed to filter in main: body non-empty and description
present and non-empty (Rust is_empty is equality with the empty string). -/
def snippetFilter (s : Snippet) : Bool :=
  !(s.body == "") &&
    (match s.description with
     | some d => !(d == "")
     | none => false)

/-- The collection handed to server::start: the pushed snippets surviving the
final filter. -/
def mainSnippets (lines : List String) (iter : List (String × String)) :
    List Snippet :=
  (snippetsAll lines iter).filter snippetFilter

/-! ## Embedding of src/lib.rs -/

/-- zed::Os. -/
inductive Os
  | mac
  | linux
  | windows
deriving DecidableEq, Repr

/-- zed::Architecture. -/
inductive Architecture
  | aarch64
  | x86
  | x8664
deriving DecidableEq, Repr

/-- The Debug formatting of zed::Architecture used by the error message of
target_triple. -/
def archDebug : Architecture → String
  | .aarch64 => "Aarch64"
  | .x86 => "X86"
  | .x8664 => "X8664"

/-- The two installation-status values the extension reports. -/
inductive InstallationStatus
  | checkingForUpdate
  | downloading
deriving DecidableEq, Repr

/-- The observable side effects of a provisioning call, in order. -/
inductive Event
  | setStatus : InstallationStatus → Event
  | downloadFile : String → String → Event
  | removeDirAll : String → Bool → Event
  | makeExecutable : String → Event
deriving DecidableEq, Repr

/-- A release asset, zed::GithubReleaseAsset (name and download_url). -/
structure Asset where
  name : String
  download_url : String
deriving DecidableEq, Repr

/-- A release, zed::GithubRelease (version and assets). -/
structure Release where
  version : String
  assets : List Asset
deriving DecidableEq, Repr

/-- One entry from fs::read_dir: file_name models
entry.file_name().to_str() (none when not valid UTF-8), path models
entry.path(). -/
structure DirEntry where
  file_name : Option String
  path : String
deriving DecidableEq, Repr

/-- The ambient world of one provisioning call: the platform reported by
zed::current_platform, the worktree's which lookups, the filesystem and
network primitives. Each is a fixed value or function for the duration of
the call. -/
structure Env where
  platform : Os
  arch : Architecture
  whichPlain : Option String
  whichTriple : String → Option String
  fileIsFile : String → Bool
  latestRelease : Except String Release
  downloadFile : String → String → Except String Unit
  readDir : Except String (List (Except String DirEntry))
  removeOk : String → Bool
  makeExecutable : String → Except String Unit

/-- fn target_triple from lib.rs: the architecture arm runs first, each arm
guarded by the binary kind; the triple is binary-arch-os. -/
def target_triple (platform : Os) (arch : Architecture) (binary : String) :
    Except String String :=
  let archResult : Except String String :=
    match arch with
    | .aarch64 =>
      if binary = "unicode-ls" then .ok "aarch64"
      else .error ("unsupported architecture: " ++ archDebug arch)
    | .x8664 =>
      if binary = "unicode-ls" then .ok "x86_64"
      else .error ("unsupported architecture: " ++ archDebug arch)
    | _ => .error ("unsupported architecture: " ++ archDebug arch)
  match archResult with
  | .error e => .error e
  | .ok archStr =>
    let osResult : Except String String :=
      match platform with
      | .mac =>
        if binary = "unicode-ls" then .ok "apple-darwin"
        else .error "unsupported platform"
      | .linux =>
        if binary = "unicode-ls" then .ok "unknown-linux-gnu"
        else .error "unsupported platform"
      | .windows =>
        if binary = "unicode-ls" then .ok "pc-windows-msvc"
        else .error "unsupported platform"
    match osResult with
    | .error e => .error e
    | .ok osStr => .ok (binary ++ "-" ++ archStr ++ "-" ++ osStr)

/-- The asset name download looks for. -/
def asset_name (tt : String) : String := tt ++ ".zip"

/-- The assets.iter().find search of download. -/
def findAsset (release : Release) (tt : String) : Option Asset :=
  release.assets.find? (fun asset => asset.name == asset_name tt)

/-- The version directory name of download. -/
def version_dir (binary version : String) : String := binary ++ "-" ++ version

/-- The binary path inside a version directory. -/
def binary_path_in (vd binary : String) : String := vd ++ "/" ++ binary

/-- The cleanup loop of download: walk the directory entries in order; an Err
entry aborts with an error (events before it already performed); an entry
whose name starts with the binary kind and differs from the new version
directory is removed, the removal's own outcome recorded but discarded.
Returns the removal events performed and the first entry error, if any. -/
def cleanupEntries (binary vd : String) (removeOk : String → Bool) :
    List (Except String DirEntry) → List Event × Option String
  | [] => ([], none)
  | .error e :: _ => ([], some ("failed to load directory entry " ++ e))
  | .ok entry :: rest =>
    let evs : List Event :=
      match entry.file_name with
      | some fn =>
        if fn.startsWith binary ∧ fn ≠ vd then
          [Event.removeDirAll entry.path (removeOk entry.path)]
        else []
      | none => []
    let tail := cleanupEntries binary vd removeOk rest
    (evs ++ tail.1, tail.2)

/-- fn download from lib.rs: fetch the latest release, resolve the target
triple, find the matching asset; if the versioned binary file is not already
present, report Downloading, download the zip, and scan the working
directory removing stale sibling installs (errors of individual removals
discarded with .ok()); finally mark the binary executable and return its
path. Result paired with the ordered list of observable events. -/
def download (env : Env) (binary repo : String) :
    Except String String × List Event :=
  match env.latestRelease with
  | .error e => (.error e, [])
  | .ok release =>
    match target_triple env.platform env.arch binary with
    | .error e => (.error e, [])
    | .ok tt =>
      match findAsset release tt with
      | none => (.error ("no asset found matching \x22" ++ asset_name tt ++ "\x22"), [])
      | some asset =>
        let vd := version_dir binary release.version
        let binary_path := binary_path_in vd binary
        if env.fileIsFile binary_path then
          match env.makeExecutable binary_path with
          | .error e => (.error e, [Event.makeExecutable binary_path])
          | .ok _ => (.ok binary_path, [Event.makeExecutable binary_path])
        else
          let evs0 : List Event :=
            [Event.setStatus .downloading,
             Event.downloadFile asset.download_url vd]
          match env.downloadFile asset.download_url vd with
          | .error e => (.error ("failed to download file: " ++ e), evs0)
          | .ok _ =>
            match env.readDir with
            | .error e =>
              (.error ("failed to list working directory " ++ e), evs0)
            | .ok entries =>
              let cleaned := cleanupEntries binary vd env.removeOk entries
              match cleaned.2 with
              | some e => (.error e, evs0 ++ cleaned.1)
              | none =>
                match env.makeExecutable binary_path with
                | .error e =>
                  (.error e,
                   evs0 ++ cleaned.1 ++ [Event.makeExecutable binary_path])
                | .ok _ =>
                  (.ok binary_path,
                   evs0 ++ cleaned.1 ++ [Event.makeExecutable binary_path])

/-- What one call to language_server_binary_path produces: the returned
result, the events it performed, the cache field it leaves behind, and
whether it invoked download. -/
structure LocatorOutcome where
  result : Except String String
  events : List Event
  cached_ls_binary_path : Option String
  downloadInvoked : Bool
deriving Repr

/-- fn language_server_binary_path from lib.rs: report CheckingForUpdate,
then try worktree.which("unicode-ls"), then worktree.which(triple), then the
instance cache (accepted only when the file still exists), and finally
download; a successful download overwrites the cache. -/
def language_server_binary_path (env : Env) (cache : Option String) :
    LocatorOutcome :=
  let ev0 : List Event := [Event.setStatus .checkingForUpdate]
  match env.whichPlain with
  | some path => ⟨.ok path, ev0, cache, false⟩
  | none =>
    match target_triple env.platform env.arch "unicode-ls" with
    | .error e => ⟨.error e, ev0, cache, false⟩
    | .ok tt =>
      match env.whichTriple tt with
      | some path => ⟨.ok path, ev0, cache, false⟩
      | none =>
        let cacheHit : Option String :=
          match cache with
          | some path => if env.fileIsFile path then some path else none
          | none => none
        match cacheHit with
        | some path => ⟨.ok path, ev0, cache, false⟩
        | none =>
          let dl := download env "unicode-ls" "aripiprazole/zed-unicode"
          match dl.1 with
          | .ok p => ⟨.ok p, ev0 ++ dl.2, some p, true⟩
          | .error e => ⟨.error e, ev0 ++ dl.2, cache, true⟩

/-! ## Concrete environments and the spec-modelled output order -/

/-- Modelled from the spec: the claim's final sequence for C8 — the generated
entries in file order, followed by one curated entry per row of the curated
table, in the order the table lists its rows, the whole passed through the
final filter. (The code instead iterates the HashMap built from the table,
whose iteration order is unspecified and which collapses duplicate keys.) -/
def claimedOutput (lines : List String) : List Snippet :=
  (mainLoop [] lines ++
    curatedPairs.map
      (fun p => Snippet.mk none p.1 (some p.2) p.2)).filter
    snippetFilter

/-- A world where the plain workspace lookup already finds the binary
(resolution tier 1); everything else is inert. -/
def tier1Env : Env :=
  { platform := .mac
    arch := .aarch64
    whichPlain := some "/usr/local/bin/unicode-ls"
    whichTriple := fun _ => none
    fileIsFile := fun _ => false
    latestRelease := .error "offline"
    downloadFile := fun _ _ => .error "offline"
    readDir := .ok []
    removeOk := fun _ => true
    makeExecutable := fun _ => .ok () }

/-- A world where both workspace lookups miss and the previously cached
binary file still exists on disk (resolution tier 3); the network is down,
so any download attempt would fail. -/
def cacheEnv : Env :=
  { platform := .mac
    arch := .aarch64
    whichPlain := none
    whichTriple := fun _ => none
    fileIsFile := fun path => path == "unicode-ls-1.0.0/unicode-ls"
    latestRelease := .error "offline"
    downloadFile := fun _ _ => .error "offline"
    readDir := .ok []
    removeOk := fun _ => true
    makeExecutable := fun _ => .ok () }

/-- A world exercising the full fetch path: a release with a matching asset,
no binary on disk yet, a working download, and one stale version directory
in the working directory whose removal fails. -/
def cleanupEnv : Env :=
  { platform := .mac
    arch := .aarch64
    whichPlain := none
    whichTriple := fun _ => none
    fileIsFile := fun _ => false
    latestRelease := .ok
      (Release.mk "1.2.3"
        [Asset.mk "unicode-ls-aarch64-apple-darwin.zip"
          "https://example.invalid/a.zip"])
    downloadFile := fun _ _ => .ok ()
    readDir := .ok
      [.ok (DirEntry.mk (some "unicode-ls-1.0.0") "./unicode-ls-1.0.0")]
    removeOk := fun _ => false
    makeExecutable := fun _ => .ok () }

end ZedUnicode


namespace ZedUnicode

/-! ## Loop decomposition lemmas -/

theorem mainLoop_acc (acc : List Snippet) (ls : List String) :
    mainLoop acc ls = acc ++ mainLoop [] ls := by
  induction ls generalizing acc with
  | nil => simp [mainLoop]
  | cons l rest ih =>
    rw [mainLoop, mainLoop, ih (acc ++ lineSnippets l), ih ([] ++ lineSnippets l)]
    simp

theorem mainLoop_cons (l : String) (ls : List String) :
    mainLoop [] (l :: ls) = lineSnippets l ++ mainLoop [] ls := by
  rw [mainLoop, mainLoop_acc]
  simp

theorem curatedLoop_acc (acc : List Snippet) (ps : List (String × String)) :
    curatedLoop acc ps = acc ++ curatedLoop [] ps := by
  induction ps generalizing acc with
  | nil => simp [curatedLoop]
  | cons p rest ih =>
    obtain ⟨name, value⟩ := p
    rw [curatedLoop, curatedLoop,
      ih (acc ++ [Snippet.mk none name (some value) value]),
      ih ([] ++ [Snippet.mk none name (some value) value])]
    simp

theorem curatedLoop_eq_map (ps : List (String × String)) :
    curatedLoop [] ps =
      ps.map (fun p => Snippet.mk none p.1 (some p.2) p.2) := by
  induction ps with
  | nil => rfl
  | cons p rest ih =>
    obtain ⟨name, value⟩ := p
    rw [curatedLoop, curatedLoop_acc, ih]
    simp [Snippet.mk.injEq]

/-! ## The final filter, characterized -/

theorem snippetFilter_eq_true (s : Snippet) :
    snippetFilter s = true ↔
      s.body ≠ "" ∧ ∃ d, s.description = some d ∧ d ≠ "" := by
  unfold snippetFilter
  cases hd : s.description with
  | none => simp [hd]
  | some d => simp [hd]

end ZedUnicode

namespace ZedUnicode

/-- C3: for every (os, architecture) pair in the fixed mapping table
(Aarch64 to aarch64, X8664 to x86_64; Mac to apple-darwin, Linux to
unknown-linux-gnu, Windows to pc-windows-msvc), target_triple returns
exactly the string kind-arch-os for the single supported binary kind
unicode-ls, and for the pairs outside the table (those with architecture
X86) it returns an error, never a string. -/
theorem c3_target_triple_table :
    target_triple .mac .aarch64 "unicode-ls" =
        .ok "unicode-ls-aarch64-apple-darwin" ∧
    target_triple .linux .aarch64 "unicode-ls" =
        .ok "unicode-ls-aarch64-unknown-linux-gnu" ∧
    target_triple .windows .aarch64 "unicode-ls" =
        .ok "unicode-ls-aarch64-pc-windows-msvc" ∧
    target_triple .mac .x8664 "unicode-ls" =
        .ok "unicode-ls-x86_64-apple-darwin" ∧
    target_triple .linux .x8664 "unicode-ls" =
        .ok "unicode-ls-x86_64-unknown-linux-gnu" ∧
    target_triple .windows .x8664 "unicode-ls" =
        .ok "unicode-ls-x86_64-pc-windows-msvc" ∧
    target_triple .mac .x86 "unicode-ls" =
        .error "unsupported architecture: X86" ∧
    target_triple .linux .x86 "unicode-ls" =
        .error "unsupported architecture: X86" ∧
    target_triple .windows .x86 "unicode-ls" =
        .error "unsupported architecture: X86" :=
  ⟨rfl, rfl, rfl, rfl, rfl, rfl, rfl, rfl, rfl⟩

/-- C1 counterexample: the record 0041;LATIN CAPITAL LETTER A;... does
produce exactly one entry with description A and body A, but its completion
prefix is latin-capital-letter-a, not CAPITAL-LETTER-A as the claim states:
main.rs lowercases the name before calling get_prefix, so the uppercase
literal removals never apply. -/
theorem c1_counterexample_capital_a :
    lineSnippets "0041;LATIN CAPITAL LETTER A;Lu;0;L;;;;;N;;;;0061;" =
      [Snippet.mk none "latin-capital-letter-a" (some "A") "A"] ∧
    ¬ ∃ s ∈ lineSnippets "0041;LATIN CAPITAL LETTER A;Lu;0;L;;;;;N;;;;0061;",
        s.pfx = "CAPITAL-LETTER-A" := by
  constructor
  · decide
  · decide

/-- C1 amended: for every input line whose second field is a character name,
the completion prefix is computed from the LOWERCASED name by removing the
literal substrings (which, being uppercase, never occur in the lowercased
name) and then replacing every remaining space with a hyphen; in particular
the record 0041;LATIN CAPITAL LETTER A;... produces an entry with prefix
latin-capital-letter-a, description A, and body A. -/
theorem c1_lowercased_normalization :
    (∀ line c name rest n ch pfx,
      line ≠ "" →
      splitOnStr line ';' = c :: name :: rest →
      u32_from_str_radix_16 c = some n →
      char_try_from n = some ch →
      get_prefix (toLowercase name) = some pfx →
      lineSnippets line =
        [Snippet.mk none pfx (some (String.singleton ch))
          (String.singleton ch)]) ∧
    lineSnippets "0041;LATIN CAPITAL LETTER A;Lu;0;L;;;;;N;;;;0061;" =
      [Snippet.mk none "latin-capital-letter-a" (some "A") "A"] := by
  constructor
  · intro line c name rest n ch pfx hne hsplit hhex hchar hpfx
    unfold lineSnippets
    simp [hne, hsplit, hhex, hchar, hpfx]
  · decide

/-- C1 amended, witnessed at the record from the claim. -/
theorem c1_lowercased_normalization_witness :
    lineSnippets "0041;LATIN CAPITAL LETTER A;Lu;0;L;;;;;N;;;;0061;" =
      [Snippet.mk none "latin-capital-letter-a" (some "A") "A"] :=
  c1_lowercased_normalization.1
    "0041;LATIN CAPITAL LETTER A;Lu;0;L;;;;;N;;;;0061;" "0041"
    "LATIN CAPITAL LETTER A"
    ["Lu", "0", "L", "", "", "", "", "N", "", "", "", "0061", ""]
    65 'A' "latin-capital-letter-a"
    (by decide) (by decide) (by decide) (by decide) (by decide)

/-- C6: a malformed line (fewer than two semicolon-separated fields), a
field 0 that is not valid base-16 for u32, or a parsed integer that is not a
valid character codepoint causes only that line to be skipped; removing such
a line from the input leaves the record loop's output unchanged, so all
other valid lines still produce their entries and the build never aborts. -/
theorem c6_per_line_skip :
    (∀ line, (splitOnStr line ';').length < 2 → lineSnippets line = []) ∧
    (∀ line c name rest,
      splitOnStr line ';' = c :: name :: rest →
      u32_from_str_radix_16 c = none → lineSnippets line = []) ∧
    (∀ line c name rest n,
      splitOnStr line ';' = c :: name :: rest →
      u32_from_str_radix_16 c = some n → char_try_from n = none →
      lineSnippets line = []) ∧
    (∀ pre bad post, lineSnippets bad = [] →
      mainLoop [] (pre ++ bad :: post) = mainLoop [] (pre ++ post)) := by
  refine ⟨?_, ?_, ?_, ?_⟩
  · intro line h
    unfold lineSnippets
    by_cases hne : line = ""
    · simp [hne]
    · cases hs : splitOnStr line ';' with
      | nil => simp [hne, hs]
      | cons a t =>
        cases t with
        | nil => simp [hne, hs]
        | cons b t2 =>
          exfalso
          rw [hs] at h
          simp only [List.length_cons] at h
          omega
  · intro line c name rest hs hhex
    unfold lineSnippets
    by_cases hne : line = ""
    · simp [hne]
    · simp [hne, hs, hhex]
  · intro line c name rest n hs hhex hchar
    unfold lineSnippets
    by_cases hne : line = ""
    · simp [hne]
    · simp [hne, hs, hhex, hchar]
  · intro pre bad post h
    induction pre with
    | nil => simp [mainLoop_cons, h]
    | cons l pre ih => simp [List.cons_append, mainLoop_cons, ih]

/-- C6, witnessed: a line without separator, a line with non-hex field 0,
and a surrogate codepoint line each produce nothing, and dropping the
surrogate line from a three-line input leaves the other two lines' output
unchanged. -/
theorem c6_per_line_skip_witness :
    lineSnippets "noseparator" = [] ∧
    lineSnippets "xyzz;NO HEX;x" = [] ∧
    lineSnippets "D800;SURROGATE;x" = [] ∧
    mainLoop []
      ["0041;LATIN CAPITAL LETTER A;Lu", "D800;SURROGATE;x",
       "0042;LATIN CAPITAL LETTER B;Lu"] =
      mainLoop []
        ["0041;LATIN CAPITAL LETTER A;Lu",
         "0042;LATIN CAPITAL LETTER B;Lu"] :=
  ⟨c6_per_line_skip.1 "noseparator" (by decide),
   c6_per_line_skip.2.1 "xyzz;NO HEX;x" "xyzz" "NO HEX" ["x"]
     (by decide) (by decide),
   c6_per_line_skip.2.2.1 "D800;SURROGATE;x" "D800" "SURROGATE" ["x"] 55296
     (by decide) (by decide) (by decide),
   c6_per_line_skip.2.2.2 ["0041;LATIN CAPITAL LETTER A;Lu"]
     "D800;SURROGATE;x" ["0042;LATIN CAPITAL LETTER B;Lu"]
     (c6_per_line_skip.2.2.1 "D800;SURROGATE;x" "D800" "SURROGATE" ["x"]
       55296 (by decide) (by decide) (by decide))⟩

end ZedUnicode

namespace ZedUnicode

/-- C7: every entry of the final output collection has a non-empty body and
a present, non-empty description, and any entry violating either condition
is dropped by the final filter. -/
theorem c7_final_filter (lines : List String) (iter : List (String × String))
    (s : Snippet) :
    (s ∈ mainSnippets lines iter →
      s.body ≠ "" ∧ ∃ d, s.description = some d ∧ d ≠ "") ∧
    ((s.body = "" ∨ s.description = none ∨ s.description = some "") →
      s ∉ mainSnippets lines iter) := by
  have key : ∀ t : Snippet, t ∈ mainSnippets lines iter →
      snippetFilter t = true := by
    intro t ht
    unfold mainSnippets at ht
    exact List.of_mem_filter ht
  constructor
  · intro hmem
    exact (snippetFilter_eq_true s).mp (key s hmem)
  · intro hdeg hmem
    have h := (snippetFilter_eq_true s).mp (key s hmem)
    rcases hdeg with h1 | h1 | h1
    · exact h.1 h1
    · rcases h.2 with ⟨d, hd, _⟩
      rw [h1] at hd
      cases hd
    · rcases h.2 with ⟨d, hd, hdne⟩
      rw [h1] at hd
      exact hdne (Option.some.inj hd).symm

/-- C7, witnessed: an entry with an empty description is not in the output
built from no record lines and no curated entries. -/
theorem c7_final_filter_witness :
    Snippet.mk none "x" (some "") "y" ∉ mainSnippets [] [] :=
  (c7_final_filter [] [] (Snippet.mk none "x" (some "") "y")).2
    (Or.inr (Or.inr rfl))

/-- Each record line contributes either nothing or exactly one snippet whose
description and body are the same single-character string. -/
theorem lineSnippets_shape (line : String) :
    lineSnippets line = [] ∨
    ∃ pfx ch, lineSnippets line =
      [Snippet.mk none pfx (some (String.singleton ch))
        (String.singleton ch)] := by
  unfold lineSnippets
  split
  · exact Or.inl rfl
  · split
    · split
      · exact Or.inl rfl
      · split
        · exact Or.inl rfl
        · dsimp only
          split
          · exact Or.inl rfl
          · exact Or.inr ⟨_, _, rfl⟩
    · exact Or.inl rfl

/-- Every snippet one record line contributes has its description equal to
some of its body (both are the character's textual representation). -/
theorem lineSnippets_desc (line : String) (s : Snippet)
    (h : s ∈ lineSnippets line) : s.description = some s.body := by
  rcases lineSnippets_shape line with h1 | ⟨pfx, ch, h1⟩ <;> rw [h1] at h
  · simp at h
  · simp at h
    subst h
    rfl

/-- Every snippet the record loop produces has description = some body. -/
theorem mainLoop_desc (lines : List String) (s : Snippet)
    (h : s ∈ mainLoop [] lines) : s.description = some s.body := by
  induction lines with
  | nil => simp [mainLoop] at h
  | cons l rest ih =>
    rw [mainLoop_cons] at h
    rcases List.mem_append.mp h with h1 | h2
    · exact lineSnippets_desc l s h1
    · exact ih h2

/-- C9: every entry in the final output collection, generated or curated,
has its description field equal to Some of its body field. -/
theorem c9_description_eq_body (lines : List String)
    (iter : List (String × String)) (s : Snippet)
    (h : s ∈ mainSnippets lines iter) : s.description = some s.body := by
  unfold mainSnippets at h
  have h2 := List.mem_of_mem_filter h
  unfold snippetsAll at h2
  rw [curatedLoop_acc] at h2
  rcases List.mem_append.mp h2 with h3 | h3
  · exact mainLoop_desc lines s h3
  · rw [curatedLoop_eq_map] at h3
    rcases List.mem_map.mp h3 with ⟨p, _, rfl⟩
    rfl

/-- C9, witnessed at a one-entry curated table. -/
theorem c9_description_eq_body_witness :
    (Snippet.mk none "lambda" (some "λ") "λ").description =
      some (Snippet.mk none "lambda" (some "λ") "λ").body :=
  c9_description_eq_body [] [("lambda", "λ")]
    (Snippet.mk none "lambda" (some "λ") "λ") (by decide)

/-- C8 counterexample: with no record lines and the modelled HashMap
iteration, the code's output is not the claimed sequence of curated entries
in table order: the table lists 67 pairs (Leftrightarrow twice), but the
HashMap holds 66 entries, so the lengths already differ. -/
theorem c8_counterexample_curated_order :
    mainSnippets [] unicodeMapEntries ≠ claimedOutput [] ∧
    (mainSnippets [] unicodeMapEntries).length = 66 ∧
    (claimedOutput []).length = 67 :=
  ⟨fun h => absurd (congrArg List.length h) (by decide), by decide, by decide⟩

/-- C8 amended: the final output is the generated entries first, in the
order of their lines in the record file, followed by the curated entries in
the HashMap's iteration order — an unspecified permutation of the
deduplicated curated table (later duplicate mnemonics overwrite earlier
ones), not the table's listed order. -/
theorem c8_output_order (lines : List String) (iter : List (String × String))
    (hperm : iter.Perm unicodeMapEntries) :
    mainSnippets lines iter =
      (mainLoop [] lines).filter snippetFilter ++
        (curatedLoop [] iter).filter snippetFilter ∧
    ((curatedLoop [] iter).filter snippetFilter).Perm
      ((curatedLoop [] unicodeMapEntries).filter snippetFilter) := by
  constructor
  · unfold mainSnippets snippetsAll
    rw [curatedLoop_acc, List.filter_append]
  · rw [curatedLoop_eq_map, curatedLoop_eq_map]
    exact (hperm.map _).filter _

/-- C8 amended, witnessed at the canonical iteration order. -/
theorem c8_output_order_witness :
    mainSnippets [] unicodeMapEntries =
      (mainLoop [] []).filter snippetFilter ++
        (curatedLoop [] unicodeMapEntries).filter snippetFilter :=
  (c8_output_order [] unicodeMapEntries (List.Perm.refl _)).1

end ZedUnicode

namespace ZedUnicode

/-! ## Cleanup-scan lemmas -/

theorem cleanupEntries_all_ok (binary vd : String)
    (removeOk : String → Bool) :
    ∀ entries : List (Except String DirEntry),
      (∀ x ∈ entries, ∃ d, x = .ok d) →
      (cleanupEntries binary vd removeOk entries).2 = none := by
  intro entries
  induction entries with
  | nil => intro _; rfl
  | cons x rest ih =>
    intro h
    rcases h x (List.mem_cons_self x rest) with ⟨d, rfl⟩
    rw [cleanupEntries]
    exact ih (fun y hy => h y (List.mem_cons_of_mem _ hy))

theorem cleanupEntries_first_err (binary vd : String)
    (removeOk : String → Bool) (e : String)
    (rest : List (Except String DirEntry)) :
    ∀ pre : List (Except String DirEntry),
      (∀ x ∈ pre, ∃ d, x = .ok d) →
      (cleanupEntries binary vd removeOk (pre ++ .error e :: rest)).2 =
        some ("failed to load directory entry " ++ e) := by
  intro pre
  induction pre with
  | nil => intro _; rfl
  | cons x pre ih =>
    intro h
    rcases h x (List.mem_cons_self x pre) with ⟨d, rfl⟩
    rw [List.cons_append, cleanupEntries]
    exact ih (fun y hy => h y (List.mem_cons_of_mem _ hy))

/-- A Downloading status can only appear in download's trace when the
release was fetched and the versioned binary file was not already present. -/
theorem download_downloading_mem (env : Env) (binary repo : String) :
    Event.setStatus .downloading ∈ (download env binary repo).2 →
    ∃ release, env.latestRelease = .ok release ∧
      env.fileIsFile
        (binary_path_in (version_dir binary release.version) binary) =
          false := by
  intro h
  cases hrel : env.latestRelease with
  | error e => simp [download, hrel] at h
  | ok release =>
    cases htt : target_triple env.platform env.arch binary with
    | error e => simp [download, hrel, htt] at h
    | ok tt =>
      cases hasset : findAsset release tt with
      | none => simp [download, hrel, htt, hasset] at h
      | some asset =>
        cases hfif : env.fileIsFile
            (binary_path_in (version_dir binary release.version) binary) with
        | true =>
          cases hme : env.makeExecutable
              (binary_path_in (version_dir binary release.version)
                binary) with
          | error e2 => simp [download, hrel, htt, hasset, hfif, hme] at h
          | ok u => simp [download, hrel, htt, hasset, hfif, hme] at h
        | false => exact ⟨release, rfl, hfif⟩

/-- One call to the locator either stops in tiers 1 to 3 (no download, no
event beyond CheckingForUpdate, cache untouched) or reaches tier 4 and
behaves as download does, overwriting the cache exactly on success. -/
theorem locator_cases (env : Env) (cache : Option String) :
    ((language_server_binary_path env cache).downloadInvoked = false ∧
      (language_server_binary_path env cache).events =
        [Event.setStatus .checkingForUpdate] ∧
      (language_server_binary_path env cache).cached_ls_binary_path =
        cache) ∨
    ((language_server_binary_path env cache).downloadInvoked = true ∧
      (language_server_binary_path env cache).events =
        Event.setStatus .checkingForUpdate ::
          (download env "unicode-ls" "aripiprazole/zed-unicode").2 ∧
      ((∃ q,
          (download env "unicode-ls" "aripiprazole/zed-unicode").1 =
            .ok q ∧
          (language_server_binary_path env cache).result = .ok q ∧
          (language_server_binary_path env cache).cached_ls_binary_path =
            some q) ∨
        (∃ e,
          (download env "unicode-ls" "aripiprazole/zed-unicode").1 =
            .error e ∧
          (language_server_binary_path env cache).result = .error e ∧
          (language_server_binary_path env cache).cached_ls_binary_path =
            cache))) := by
  cases hwp : env.whichPlain with
  | some path =>
    refine Or.inl ⟨?_, ?_, ?_⟩ <;> simp [language_server_binary_path, hwp]
  | none =>
    cases htt : target_triple env.platform env.arch "unicode-ls" with
    | error e =>
      refine Or.inl ⟨?_, ?_, ?_⟩ <;>
        simp [language_server_binary_path, hwp, htt]
    | ok tt =>
      cases hwt : env.whichTriple tt with
      | some path =>
        refine Or.inl ⟨?_, ?_, ?_⟩ <;>
          simp [language_server_binary_path, hwp, htt, hwt]
      | none =>
        cases cache with
        | some p =>
          cases hfif : env.fileIsFile p with
          | true =>
            refine Or.inl ⟨?_, ?_, ?_⟩ <;>
              simp [language_server_binary_path, hwp, htt, hwt, hfif]
          | false =>
            cases hdl :
                (download env "unicode-ls" "aripiprazole/zed-unicode").1 with
            | ok q =>
              refine Or.inr ⟨?_, ?_, Or.inl ⟨q, rfl, ?_, ?_⟩⟩ <;>
                simp [language_server_binary_path, hwp, htt, hwt, hfif, hdl]
            | error e =>
              refine Or.inr ⟨?_, ?_, Or.inr ⟨e, rfl, ?_, ?_⟩⟩ <;>
                simp [language_server_binary_path, hwp, htt, hwt, hfif, hdl]
        | none =>
          cases hdl :
              (download env "unicode-ls" "aripiprazole/zed-unicode").1 with
          | ok q =>
            refine Or.inr ⟨?_, ?_, Or.inl ⟨q, rfl, ?_, ?_⟩⟩ <;>
              simp [language_server_binary_path, hwp, htt, hwt, hdl]
          | error e =>
            refine Or.inr ⟨?_, ?_, Or.inr ⟨e, rfl, ?_, ?_⟩⟩ <;>
              simp [language_server_binary_path, hwp, htt, hwt, hdl]

end ZedUnicode

namespace ZedUnicode

/-- C2 counterexample: a call that succeeds via tier 1 (plain workspace
lookup) performs no download, yet its event trace does contain the
checking-for-update status — the code emits it at the start of every
resolution call, not only on the full fetch path. -/
theorem c2_counterexample_tier1_emits_checking :
    (language_server_binary_path tier1Env none).result =
      .ok "/usr/local/bin/unicode-ls" ∧
    (language_server_binary_path tier1Env none).downloadInvoked = false ∧
    Event.setStatus .checkingForUpdate ∈
      (language_server_binary_path tier1Env none).events := by
  refine ⟨rfl, rfl, ?_⟩
  decide

/-- C2 amended: the checking-for-update status is emitted at the start of
every resolution call, whichever tier succeeds (it is the head of every
trace, and a call that never invokes download emits nothing else); the
downloading status is emitted only on the full fetch path, and there only
when the versioned binary file is not already present on disk. -/
theorem c2_status_emission :
    (∀ env cache,
      (language_server_binary_path env cache).events.head? =
        some (Event.setStatus .checkingForUpdate)) ∧
    (∀ env cache,
      (language_server_binary_path env cache).downloadInvoked = false →
        (language_server_binary_path env cache).events =
          [Event.setStatus .checkingForUpdate]) ∧
    (∀ env cache,
      Event.setStatus .downloading ∈
          (language_server_binary_path env cache).events →
        (language_server_binary_path env cache).downloadInvoked = true) ∧
    (∀ env binary repo,
      Event.setStatus .downloading ∈ (download env binary repo).2 →
        ∃ release, env.latestRelease = .ok release ∧
          env.fileIsFile
            (binary_path_in (version_dir binary release.version) binary) =
              false) := by
  refine ⟨?_, ?_, ?_,
    fun env binary repo => download_downloading_mem env binary repo⟩
  · intro env cache
    rcases locator_cases env cache with ⟨_, hev, _⟩ | ⟨_, hev, _⟩ <;>
      rw [hev] <;> rfl
  · intro env cache h
    rcases locator_cases env cache with ⟨_, hev, _⟩ | ⟨hinv, _, _⟩
    · exact hev
    · rw [h] at hinv
      exact Bool.noConfusion hinv
  · intro env cache h
    rcases locator_cases env cache with ⟨hinv, hev, _⟩ | ⟨hinv, _, _⟩
    · rw [hev] at h
      simp at h
    · exact hinv

/-- C2 amended, witnessed: the tier-1 call's whole trace is exactly the one
checking-for-update event. -/
theorem c2_status_emission_witness :
    (language_server_binary_path tier1Env none).downloadInvoked = false ∧
    (language_server_binary_path tier1Env none).events =
      [Event.setStatus .checkingForUpdate] :=
  ⟨rfl, c2_status_emission.2.1 tier1Env none rfl⟩

/-- C4: when both workspace lookups miss, a cached path whose file still
exists is returned unchanged with no download; and when the cached file no
longer exists the cache tier is skipped without clearing the cached value —
the call invokes download, returns its result, keeps the old cached value
on failure, and overwrites it only on success. -/
theorem c4_cache_reuse (env : Env) (cache : Option String) (p tt : String)
    (h1 : env.whichPlain = none)
    (htt : target_triple env.platform env.arch "unicode-ls" = .ok tt)
    (h2 : env.whichTriple tt = none)
    (h3 : cache = some p) :
    (env.fileIsFile p = true →
      (language_server_binary_path env cache).result = .ok p ∧
      (language_server_binary_path env cache).cached_ls_binary_path =
        cache ∧
      (language_server_binary_path env cache).downloadInvoked = false) ∧
    (env.fileIsFile p = false →
      (language_server_binary_path env cache).downloadInvoked = true ∧
      (language_server_binary_path env cache).result =
        (download env "unicode-ls" "aripiprazole/zed-unicode").1 ∧
      (∀ e,
        (download env "unicode-ls" "aripiprazole/zed-unicode").1 =
          .error e →
        (language_server_binary_path env cache).cached_ls_binary_path =
          some p) ∧
      (∀ q,
        (download env "unicode-ls" "aripiprazole/zed-unicode").1 = .ok q →
        (language_server_binary_path env cache).cached_ls_binary_path =
          some q)) := by
  subst h3
  constructor
  · intro hfif
    refine ⟨?_, ?_, ?_⟩ <;>
      simp [language_server_binary_path, h1, htt, h2, hfif]
  · intro hfif
    refine ⟨?_, ?_, ?_, ?_⟩
    · cases hdl :
          (download env "unicode-ls" "aripiprazole/zed-unicode").1 <;>
        simp [language_server_binary_path, h1, htt, h2, hfif, hdl]
    · cases hdl :
          (download env "unicode-ls" "aripiprazole/zed-unicode").1 <;>
        simp [language_server_binary_path, h1, htt, h2, hfif, hdl]
    · intro e he
      simp [language_server_binary_path, h1, htt, h2, hfif, he]
    · intro q hq
      simp [language_server_binary_path, h1, htt, h2, hfif, hq]

/-- C4, witnessed: in a world where both lookups miss and the cached file
exists, the call returns the cached path, leaves the cache, and downloads
nothing. -/
theorem c4_cache_reuse_witness :
    (language_server_binary_path cacheEnv
        (some "unicode-ls-1.0.0/unicode-ls")).result =
      .ok "unicode-ls-1.0.0/unicode-ls" ∧
    (language_server_binary_path cacheEnv
        (some "unicode-ls-1.0.0/unicode-ls")).cached_ls_binary_path =
      some "unicode-ls-1.0.0/unicode-ls" ∧
    (language_server_binary_path cacheEnv
        (some "unicode-ls-1.0.0/unicode-ls")).downloadInvoked = false :=
  (c4_cache_reuse cacheEnv (some "unicode-ls-1.0.0/unicode-ls")
    "unicode-ls-1.0.0/unicode-ls" "unicode-ls-aarch64-apple-darwin"
    rfl rfl rfl rfl).1 (by decide)

/-- C10: a resolution call that does not reach the downloader leaves the
instance's cached path exactly as it was; the cache changes only when the
call invoked download and download succeeded, in which case the cache and
the result are that fresh path. -/
theorem c10_cache_frame (env : Env) (cache : Option String) :
    ((language_server_binary_path env cache).downloadInvoked = false →
      (language_server_binary_path env cache).cached_ls_binary_path =
        cache) ∧
    ((language_server_binary_path env cache).cached_ls_binary_path ≠
        cache →
      (language_server_binary_path env cache).downloadInvoked = true ∧
      ∃ q,
        (download env "unicode-ls" "aripiprazole/zed-unicode").1 = .ok q ∧
        (language_server_binary_path env cache).result = .ok q ∧
        (language_server_binary_path env cache).cached_ls_binary_path =
          some q) := by
  constructor
  · intro h
    rcases locator_cases env cache with ⟨_, _, hc⟩ | ⟨hinv, _, _⟩
    · exact hc
    · rw [h] at hinv
      exact Bool.noConfusion hinv
  · intro h
    rcases locator_cases env cache with ⟨_, _, hc⟩ | ⟨hinv, _, hres⟩
    · exact absurd hc h
    · rcases hres with ⟨q, hdl, hr, hcq⟩ | ⟨e, _, _, hc⟩
      · exact ⟨hinv, q, hdl, hr, hcq⟩
      · exact absurd hc h

/-- C10, witnessed: the tier-1 call leaves an empty cache empty. -/
theorem c10_cache_frame_witness :
    (language_server_binary_path tier1Env none).cached_ls_binary_path =
      none :=
  (c10_cache_frame tier1Env none).1 rfl

end ZedUnicode

namespace ZedUnicode

/-- C5: on the fresh-download path, a failure to list the working directory
or to read a directory entry makes the whole provisioning call fail with an
error, whereas failures of the individual stale-entry removals are
discarded — whatever the removal outcomes, the call still returns the
freshly installed binary path. -/
theorem c5_cleanup_errors (env : Env) (binary repo tt : String)
    (release : Release) (asset : Asset)
    (hrel : env.latestRelease = .ok release)
    (htt : target_triple env.platform env.arch binary = .ok tt)
    (hasset : findAsset release tt = some asset)
    (hnot : env.fileIsFile
      (binary_path_in (version_dir binary release.version) binary) = false)
    (hdl : env.downloadFile asset.download_url
      (version_dir binary release.version) = .ok ()) :
    (∀ e, env.readDir = .error e →
      (download env binary repo).1 =
        .error ("failed to list working directory " ++ e)) ∧
    (∀ pre e rest,
      env.readDir = .ok (pre ++ .error e :: rest) →
      (∀ x ∈ pre, ∃ d, x = .ok d) →
      (download env binary repo).1 =
        .error ("failed to load directory entry " ++ e)) ∧
    (∀ entries, env.readDir = .ok entries →
      (∀ x ∈ entries, ∃ d, x = .ok d) →
      env.makeExecutable
          (binary_path_in (version_dir binary release.version) binary) =
        .ok () →
      ∀ r : String → Bool,
        (download { env with removeOk := r } binary repo).1 =
          .ok (binary_path_in (version_dir binary release.version)
            binary)) := by
  refine ⟨?_, ?_, ?_⟩
  · intro e hrd
    simp [download, hrel, htt, hasset, hnot, hdl, hrd]
  · intro pre e rest hrd hpre
    simp [download, hrel, htt, hasset, hnot, hdl, hrd,
      cleanupEntries_first_err binary (version_dir binary release.version)
        env.removeOk e rest pre hpre]
  · intro entries hrd hpre hme r
    simp [download, hrel, htt, hasset, hnot, hdl, hrd, hme,
      cleanupEntries_all_ok binary (version_dir binary release.version)
        r entries hpre]

/-- C5, witnessed: in a concrete full-fetch world with one stale version
directory whose removal fails, the call still returns the fresh binary
path. -/
theorem c5_cleanup_errors_witness :
    (download { cleanupEnv with removeOk := fun _ => false } "unicode-ls"
        "aripiprazole/zed-unicode").1 =
      .ok "unicode-ls-1.2.3/unicode-ls" :=
  (c5_cleanup_errors cleanupEnv "unicode-ls" "aripiprazole/zed-unicode"
    "unicode-ls-aarch64-apple-darwin"
    (Release.mk "1.2.3"
      [Asset.mk "unicode-ls-aarch64-apple-darwin.zip"
        "https://example.invalid/a.zip"])
    (Asset.mk "unicode-ls-aarch64-apple-darwin.zip"
      "https://example.invalid/a.zip")
    rfl rfl (by decide) rfl rfl).2.2
    [Except.ok (DirEntry.mk (some "unicode-ls-1.0.0") "./unicode-ls-1.0.0")]
    rfl
    (by
      intro x hx
      rw [List.mem_singleton] at hx
      exact ⟨DirEntry.mk (some "unicode-ls-1.0.0") "./unicode-ls-1.0.0", hx⟩)
    rfl (fun _ => false)

end ZedUnicode
